import Mathlib

/- Verification development for the Paper MCP client subsystem: the JSON-RPC
client (callPaperMcp), the result formatter (formatMcpResult), the tool
adapter factory (createPaperTool / execute), the tool catalog with its
argument-rewrite functions, the request-id counter and the liveness probe.
The definitions below are a shallow embedding of the TypeScript source.
JavaScript runtime behaviour that the source relies on (JSON.stringify with
2-space indentation, property access, truthiness, the /^data: (.+)$/m regex,
Array.prototype.map throwing on non-arrays) is modelled explicitly. -/

namespace Paper

/-- JSON values. Numbers are modelled as integers: every numeric value the
claims exercise is integral, and JavaScript renders integral numbers the way
`Int` does. Objects are ordered key/value lists without duplicate keys,
matching parsed-JSON objects and object literals. -/
inductive JsonValue where
  | null : JsonValue
  | bool (b : Bool) : JsonValue
  | num (n : Int) : JsonValue
  | str (s : String) : JsonValue
  | arr (items : List JsonValue) : JsonValue
  | obj (fields : List (String × JsonValue)) : JsonValue

/-- First binding of a key in an object's field list (JS objects hold at most
one binding per key). -/
def lookupProp : List (String × JsonValue) → String → Option JsonValue
  | [], _ => none
  | (k, v) :: rest, key => if k = key then some v else lookupProp rest key

/-- JS property access `v.key` on a parsed JSON value: a binding on objects,
`undefined` (modelled as `none`) on everything else. Access on `null` throws
in JS; the call sites where that can happen handle `null` explicitly. -/
def jsProp (v : JsonValue) (key : String) : Option JsonValue :=
  match v with
  | JsonValue.obj fields => lookupProp fields key
  | _ => none

/-- JS truthiness of a JSON value. -/
def jsTruthy : JsonValue → Bool
  | JsonValue.null => false
  | JsonValue.bool b => b
  | JsonValue.num n => n != 0
  | JsonValue.str s => s != ""
  | JsonValue.arr _ => true
  | JsonValue.obj _ => true

/-- JS truthiness of a possibly-`undefined` value. -/
def jsTruthyOpt : Option JsonValue → Bool
  | none => false
  | some v => jsTruthy v

/-- Whether `typeof v` is `"object"` in JS (true for objects, arrays and
`null`). -/
def isObjectType : JsonValue → Bool
  | JsonValue.null => true
  | JsonValue.arr _ => true
  | JsonValue.obj _ => true
  | _ => false

/-- Object construction where a property whose value is `undefined` is
omitted. The constructed objects flow only into `JSON.stringify` (the request
body), which drops `undefined`-valued properties, so this is observationally
the JS object literal. -/
def mkObj (fields : List (String × Option JsonValue)) : JsonValue :=
  JsonValue.obj (fields.filterMap (fun kv => kv.2.map (fun v => (kv.1, v))))

/-- An array element that is `undefined` serializes as `null`
(`JSON.stringify([undefined]) = "[null]"`). -/
def orNull (v : Option JsonValue) : JsonValue := v.getD JsonValue.null

/-- Lowercase hex digit, as used by `JSON.stringify` control-character
escapes. -/
def hexDigit (n : Nat) : String :=
  if n < 10 then toString n
  else if n = 10 then "a"
  else if n = 11 then "b"
  else if n = 12 then "c"
  else if n = 13 then "d"
  else if n = 14 then "e"
  else "f"

/-- `JSON.stringify` escaping of one character inside a string literal. -/
def escChar (c : Char) : String :=
  if c = '"' then "\\\""
  else if c = '\\' then "\\\\"
  else if c = '\n' then "\\n"
  else if c = '\r' then "\\r"
  else if c = '\t' then "\\t"
  else if c.toNat = 8 then "\\b"
  else if c.toNat = 12 then "\\f"
  else if c.toNat < 32 then "\\u00" ++ hexDigit (c.toNat / 16) ++ hexDigit (c.toNat % 16)
  else String.singleton c

/-- `JSON.stringify` escaping of a whole string body. -/
def jsonEscape (s : String) : String :=
  s.data.foldl (fun acc c => acc ++ escChar c) ""

/-- A quoted JSON string literal. -/
def jsonQuote (s : String) : String := "\"" ++ jsonEscape s ++ "\""

/-- Indentation produced by `JSON.stringify(-, null, 2)` at nesting depth
`n`. -/
def indentStr (n : Nat) : String := String.join (List.replicate n "  ")

mutual

/-- `JSON.stringify(v, null, 2)`: pretty-printing with 2-space indentation,
empty arrays and objects printed as `[]` and `\x7b\x7d`. -/
def ppJson (d : Nat) : JsonValue → String
  | JsonValue.null => "null"
  | JsonValue.bool true => "true"
  | JsonValue.bool false => "false"
  | JsonValue.num n => toString n
  | JsonValue.str s => jsonQuote s
  | JsonValue.arr [] => "[]"
  | JsonValue.arr (x :: xs) =>
      "[\n" ++ ppItems (d + 1) x xs ++ "\n" ++ indentStr d ++ "]"
  | JsonValue.obj [] => "\x7b\x7d"
  | JsonValue.obj (f :: fs) =>
      "\x7b\n" ++ ppProps (d + 1) f fs ++ "\n" ++ indentStr d ++ "\x7d"
termination_by v => sizeOf v

/-- Comma-and-newline-separated array items at depth `d`. -/
def ppItems (d : Nat) : JsonValue → List JsonValue → String
  | x, [] => indentStr d ++ ppJson d x
  | x, y :: ys => indentStr d ++ ppJson d x ++ ",\n" ++ ppItems d y ys
termination_by x xs => sizeOf x + sizeOf xs

/-- Comma-and-newline-separated object properties at depth `d`. -/
def ppProps (d : Nat) : (String × JsonValue) → List (String × JsonValue) → String
  | (k, v), [] => indentStr d ++ jsonQuote k ++ ": " ++ ppJson d v
  | (k, v), f :: fs =>
      indentStr d ++ jsonQuote k ++ ": " ++ ppJson d v ++ ",\n" ++ ppProps d f fs
termination_by f fs => sizeOf f + sizeOf fs

end

/-- `JSON.stringify(v, null, 2)` at top level. -/
def jsonStringifyPretty (v : JsonValue) : String := ppJson 0 v

mutual

/-- JS `String(v)` / template-literal conversion of a JSON value. Arrays
join their elements with commas, rendering `null` elements as the empty
string, as `Array.prototype.toString` does. -/
def jsToString : JsonValue → String
  | JsonValue.null => "null"
  | JsonValue.bool true => "true"
  | JsonValue.bool false => "false"
  | JsonValue.num n => toString n
  | JsonValue.str s => s
  | JsonValue.obj _ => "[object Object]"
  | JsonValue.arr [] => ""
  | JsonValue.arr (x :: xs) => jsJoin x xs
termination_by v => sizeOf v

/-- Comma-joined rendering of array elements. -/
def jsJoin : JsonValue → List JsonValue → String
  | JsonValue.null, [] => ""
  | x, [] => jsToString x
  | JsonValue.null, y :: ys => "," ++ jsJoin y ys
  | x, y :: ys => jsToString x ++ "," ++ jsJoin y ys
termination_by x xs => sizeOf x + sizeOf xs

end

/-- Template interpolation of a possibly-`undefined` value. -/
def jsTemplate : Option JsonValue → String
  | none => "undefined"
  | some v => jsToString v

/-- JS `String.prototype.includes`. -/
def strIncludes (s pat : String) : Bool := decide (pat.data <:+: s.data)

/-! ## The HTTP transport, as seen by `callPaperMcp`

`callPaperMcp` performs one `fetch` inside a `try`/`catch`. Everything the
surrounding code can observe of that fetch is either a settled HTTP response
(status, status text, body text) or a thrown exception carrying a message
(`err instanceof Error ? err.message : String(err)`); timeout and external
cancellation surface as such exceptions. `FetchOutcome` is that observation;
the JS runtime's `JSON.parse` is passed in as an explicit `parse` function,
whose failure carries the `SyntaxError` message that the `catch` receives. -/

/-- A settled HTTP response. -/
structure HttpResponse where
  status : Nat
  statusText : String
  body : String

/-- What one `fetch` round-trip produced. -/
inductive FetchOutcome where
  | response (r : HttpResponse) : FetchOutcome
  | thrown (message : String) : FetchOutcome

/-- The result type of `callPaperMcp`:
`{ ok: true; result } | { ok: false; error }`. The `result` field is
`json.result`, which is `undefined` (`none`) when the envelope lacks it. -/
inductive CallResult where
  | ok (result : Option JsonValue) : CallResult
  | err (error : String) : CallResult

/-- JS line terminators (`\n`, `\r`, U+2028, U+2029), the characters at
which `^`/`$` anchor under the `m` flag and which `.` never matches. -/
def isLineTerminator (c : Char) : Bool :=
  c = '\n' || c = '\r' || c.toNat = 0x2028 || c.toNat = 0x2029

/-- The segments of a text between line terminators: exactly the candidate
lines at which `/^data: (.+)$/m` may anchor. -/
def splitSegs : List Char → List (List Char)
  | [] => [[]]
  | c :: cs =>
      if isLineTerminator c then [] :: splitSegs cs
      else
        match splitSegs cs with
        | seg :: rest => (c :: seg) :: rest
        | [] => [[c]]

/-- The capture of `/^data: (.+)$/` on one terminator-free line: the
non-empty remainder after the `data: ` prefix. -/
def dataCapture : List Char → Option (List Char)
  | 'd' :: 'a' :: 't' :: 'a' :: ':' :: ' ' :: rest =>
      if rest.isEmpty then none else some rest
  | _ => none

/-- `text.match(/^data: (.+)$/m)` reduced to its capture group: the first
line of the body that matches, without its `data: ` prefix. -/
def extractData (text : String) : Option String :=
  ((splitSegs text.data).findSome? dataCapture).map String.mk

/-- The single JSON payload the client parses from a response body: the
first SSE `data: ` capture when one exists, the whole body otherwise. -/
def ssePayload (body : String) : String := (extractData body).getD body

/-- The error message for an unreachable companion process (source string,
verbatim). -/
def notRunningError : String :=
  "Paper Desktop is not running. Open a file in Paper Desktop to start the MCP server (http://127.0.0.1:29979/mcp)."

/-- The `catch` branch of `callPaperMcp`: a connection-refused or
fetch-level failure is replaced by the not-running hint, every other thrown
message is surfaced with a generic prefix. -/
def fetchCatchHandler (message : String) : CallResult :=
  if strIncludes message "ECONNREFUSED" || strIncludes message "fetch failed" then
    CallResult.err notRunningError
  else
    CallResult.err ("Paper MCP connection error: " ++ message)

/-- Handling of a successfully parsed JSON-RPC envelope (`if (json.error)`
... `return { ok: true, result: json.result }`). A parsed `null` makes the
`json.error` access itself throw, landing in the `catch` branch. -/
def rpcOutcome (json : JsonValue) : CallResult :=
  match json with
  | JsonValue.null =>
      fetchCatchHandler "Cannot read properties of null (reading 'error')"
  | _ =>
      match jsProp json "error" with
      | some e =>
          if jsTruthy e then
            CallResult.err ("Paper MCP error: " ++ jsTemplate (jsProp e "message"))
          else CallResult.ok (jsProp json "result")
      | none => CallResult.ok (jsProp json "result")

/-- The MCP endpoint (source constant). -/
def PAPER_MCP_URL : String := "http://127.0.0.1:29979/mcp"

/-- The per-call timeout in milliseconds (source constant). -/
def TIMEOUT_MS : Nat := 30000

/-- The JSON-RPC request envelope `callPaperMcp` serializes and POSTs:
`\x7b jsonrpc, method: "tools/call", params: \x7b name, arguments \x7d, id \x7d`. -/
def toolCallRequest (toolName : String) (args : JsonValue) (id : Int) : JsonValue :=
  JsonValue.obj
    [("jsonrpc", JsonValue.str "2.0"),
     ("method", JsonValue.str "tools/call"),
     ("params", JsonValue.obj
        [("name", JsonValue.str toolName), ("arguments", args)]),
     ("id", JsonValue.num id)]

/-- `callPaperMcp(toolName, args, signal)` given the outcome of its single
fetch. The request it sends is `toolCallRequest toolName args id` (the id
threading is modelled by `outboundTrace` below); the response handling does
not depend on `toolName`/`args`, exactly as in the source. Non-2xx statuses
short-circuit; 2xx bodies are parsed (SSE-wrapped or raw) and the envelope
is inspected; every thrown exception is routed to `fetchCatchHandler`. -/
def callPaperMcp (_toolName : String) (_args : JsonValue)
    (parse : String → Except String JsonValue) (outcome : FetchOutcome) :
    CallResult :=
  match outcome with
  | FetchOutcome.thrown msg => fetchCatchHandler msg
  | FetchOutcome.response r =>
      if 200 ≤ r.status ∧ r.status ≤ 299 then
        match parse (ssePayload r.body) with
        | Except.error m => fetchCatchHandler m
        | Except.ok json => rpcOutcome json
      else
        CallResult.err
          ("Paper MCP returned " ++ toString r.status ++ " " ++ r.statusText)

/-! ## Result formatting -/

/-- A content block handed back to the agent framework. The text payload is
an `Option` because `JSON.stringify(undefined, null, 2)` is `undefined`, so
the fallback block for an `undefined` raw result carries no string. -/
inductive ContentBlock where
  | text (text : Option String) : ContentBlock
  | image (data : String) (mimeType : String) : ContentBlock
deriving DecidableEq

/-- Recognition of one content item: `\x7btype: "text", text: string\x7d` or
`\x7btype: "image", data: string, mimeType?: string\x7d` with the mime type
defaulting to `image/png` when absent or not a string; everything else
(including non-objects and `null`, which the loop skips) is dropped. -/
def recognizeBlock (item : JsonValue) : Option ContentBlock :=
  match jsProp item "type" with
  | some (JsonValue.str t) =>
      if t = "text" then
        match jsProp item "text" with
        | some (JsonValue.str s) => some (ContentBlock.text (some s))
        | _ => none
      else if t = "image" then
        match jsProp item "data" with
        | some (JsonValue.str dta) =>
            some (ContentBlock.image dta
              (match jsProp item "mimeType" with
               | some (JsonValue.str mt) => mt
               | _ => "image/png"))
        | _ => none
      else none
  | _ => none

/-- The `for (const item of content) ... parts.push(...)` loop. -/
def collectParts : List JsonValue → List ContentBlock
  | [] => []
  | item :: rest =>
      match recognizeBlock item with
      | some b => b :: collectParts rest
      | none => collectParts rest

/-- `formatMcpResult(result)`: falls back to one pretty-printed-JSON text
block when the raw result is not a (truthy) object, lacks an array-valued
`content` field, or yields no recognized blocks; otherwise returns the
recognized blocks. The argument is `json.result`, hence possibly
`undefined`. -/
def formatMcpResult : Option JsonValue → List ContentBlock
  | none => [ContentBlock.text none]
  | some v =>
      if jsTruthy v && isObjectType v then
        match jsProp v "content" with
        | some (JsonValue.arr items) =>
            let parts := collectParts items
            if parts.isEmpty then
              [ContentBlock.text (some (jsonStringifyPretty v))]
            else parts
        | _ => [ContentBlock.text (some (jsonStringifyPretty v))]
      else [ContentBlock.text (some (jsonStringifyPretty v))]

/-! ## Tool adapter factory and catalog -/

/-- The structured `details` of a tool result: `\x7b error \x7d` on failure,
`\x7b mcpTool \x7d` on success. -/
inductive ToolDetails where
  | error (message : String) : ToolDetails
  | mcpTool (name : String) : ToolDetails
deriving DecidableEq

/-- The `AgentToolResult` shape `execute` resolves with. -/
structure AgentToolResult where
  content : List ContentBlock
  details : ToolDetails
deriving DecidableEq

/-- A tool definition. The source structure also carries a human label, an
LLM-facing description and a TypeBox parameter schema; `execute` reads none
of them, so they are omitted here. `mapArgs` may throw (`Except.error`)
because some rewrite functions call `.map` on fields they do not check. -/
structure PaperToolDef where
  name : String
  mcpName : String
  mapArgs : Option (JsonValue → Except String JsonValue)

/-- `params && typeof params === "object" ? params : \x7b\x7d`: objects and
arrays pass through (arrays have `typeof` `"object"` and are truthy),
everything else — including absent params and `null` — becomes the empty
mapping. -/
def coerceParams : Option JsonValue → JsonValue
  | some (JsonValue.obj fields) => JsonValue.obj fields
  | some (JsonValue.arr items) => JsonValue.arr items
  | _ => JsonValue.obj []

/-- Apply a definition's argument-rewrite function, if any. -/
def applyMapArgs (d : PaperToolDef) (a : JsonValue) : Except String JsonValue :=
  match d.mapArgs with
  | none => Except.ok a
  | some f => f a

/-- Whether the rewrite step succeeds. -/
def mapArgsOk (d : PaperToolDef) (params : Option JsonValue) : Bool :=
  match applyMapArgs d (coerceParams params) with
  | Except.ok _ => true
  | Except.error _ => false

/-- The arguments the remote method receives when the rewrite succeeds. -/
def sentArgs (d : PaperToolDef) (params : Option JsonValue) : JsonValue :=
  (applyMapArgs d (coerceParams params)).toOption.getD JsonValue.null

/-- `createPaperTool(def).execute(toolCallId, params, signal)`. The call id
is ignored by the source; the cancellation signal only influences which
`FetchOutcome` materializes. An `Except.error` models a TypeError thrown by
`mapArgs` escaping `execute` (there is no `try`/`catch` around it): the
returned promise rejects. -/
def executePaperTool (d : PaperToolDef) (_toolCallId : String)
    (params : Option JsonValue) (parse : String → Except String JsonValue)
    (outcome : FetchOutcome) : Except String AgentToolResult :=
  match applyMapArgs d (coerceParams params) with
  | Except.error e => Except.error e
  | Except.ok args =>
      match callPaperMcp d.mcpName args parse outcome with
      | CallResult.err e =>
          Except.ok ⟨[ContentBlock.text (some e)], ToolDetails.error e⟩
      | CallResult.ok result =>
          Except.ok ⟨formatMcpResult result, ToolDetails.mcpTool d.mcpName⟩

/-- `Array.prototype.map` over a possibly-absent field, as the batch tools
use it: absent or `null` receivers and receivers without a `.map` method
throw a TypeError (the exact message text is engine-specific; a
representative one is used). -/
def jsArrayMap (v : Option JsonValue)
    (f : JsonValue → Except String JsonValue) :
    Except String (List JsonValue) :=
  match v with
  | none => Except.error "Cannot read properties of undefined (reading 'map')"
  | some JsonValue.null => Except.error "Cannot read properties of null (reading 'map')"
  | some (JsonValue.arr items) => items.mapM f
  | some _ => Except.error ".map is not a function"

/-- Tool definition: paper_get_basic_info. -/
def paper_get_basic_info : PaperToolDef :=
  { name := "paper_get_basic_info", mcpName := "get_basic_info", mapArgs := none }

/-- Tool definition: paper_get_selection. -/
def paper_get_selection : PaperToolDef :=
  { name := "paper_get_selection", mcpName := "get_selection", mapArgs := none }

/-- Tool definition: paper_get_node_info (`(a) => (\x7b nodeId: a.id \x7d)`). -/
def paper_get_node_info : PaperToolDef :=
  { name := "paper_get_node_info", mcpName := "get_node_info",
    mapArgs := some (fun a => Except.ok (mkObj [("nodeId", jsProp a "id")])) }

/-- Tool definition: paper_get_children. -/
def paper_get_children : PaperToolDef :=
  { name := "paper_get_children", mcpName := "get_children",
    mapArgs := some (fun a => Except.ok (mkObj [("nodeId", jsProp a "id")])) }

/-- Tool definition: paper_get_tree_summary (`nodeId` plus optional
`depth`). -/
def paper_get_tree_summary : PaperToolDef :=
  { name := "paper_get_tree_summary", mcpName := "get_tree_summary",
    mapArgs := some (fun a =>
      Except.ok (mkObj [("nodeId", jsProp a "id"), ("depth", jsProp a "depth")])) }

/-- Tool definition: paper_get_screenshot (`nodeId` plus optional
`scale`). -/
def paper_get_screenshot : PaperToolDef :=
  { name := "paper_get_screenshot", mcpName := "get_screenshot",
    mapArgs := some (fun a =>
      Except.ok (mkObj [("nodeId", jsProp a "id"), ("scale", jsProp a "scale")])) }

/-- Tool definition: paper_get_jsx (`nodeId` plus optional `format` from
`styleFormat`). -/
def paper_get_jsx : PaperToolDef :=
  { name := "paper_get_jsx", mcpName := "get_jsx",
    mapArgs := some (fun a =>
      Except.ok (mkObj [("nodeId", jsProp a "id"), ("format", jsProp a "styleFormat")])) }

/-- Tool definition: paper_get_computed_styles (`(a) => (\x7b nodeIds: a.ids \x7d)`). -/
def paper_get_computed_styles : PaperToolDef :=
  { name := "paper_get_computed_styles", mcpName := "get_computed_styles",
    mapArgs := some (fun a => Except.ok (mkObj [("nodeIds", jsProp a "ids")])) }

/-- Tool definition: paper_get_fill_image. -/
def paper_get_fill_image : PaperToolDef :=
  { name := "paper_get_fill_image", mcpName := "get_fill_image",
    mapArgs := some (fun a => Except.ok (mkObj [("nodeId", jsProp a "id")])) }

/-- Tool definition: paper_get_font_family_info
(`(a) => (\x7b familyNames: [a.family] \x7d)`). -/
def paper_get_font_family_info : PaperToolDef :=
  { name := "paper_get_font_family_info", mcpName := "get_font_family_info",
    mapArgs := some (fun a =>
      Except.ok (JsonValue.obj [("familyNames", JsonValue.arr [orNull (jsProp a "family")])])) }

/-- Tool definition: paper_get_guide. -/
def paper_get_guide : PaperToolDef :=
  { name := "paper_get_guide", mcpName := "get_guide", mapArgs := none }

/-- Tool definition: paper_find_placement. -/
def paper_find_placement : PaperToolDef :=
  { name := "paper_find_placement", mcpName := "find_placement", mapArgs := none }

/-- Tool definition: paper_create_artboard. -/
def paper_create_artboard : PaperToolDef :=
  { name := "paper_create_artboard", mcpName := "create_artboard", mapArgs := none }

/-- Tool definition: paper_write_html (`targetNodeId` from `id`, `html`,
optional `mode`). -/
def paper_write_html : PaperToolDef :=
  { name := "paper_write_html", mcpName := "write_html",
    mapArgs := some (fun a =>
      Except.ok (mkObj
        [("targetNodeId", jsProp a "id"), ("html", jsProp a "html"),
         ("mode", jsProp a "mode")])) }

/-- Tool definition: paper_set_text_content. The rewrite maps over
`a.updates` without checking it, so it throws when `updates` is absent, not
an array, or contains `null` items. -/
def paper_set_text_content : PaperToolDef :=
  { name := "paper_set_text_content", mcpName := "set_text_content",
    mapArgs := some (fun a => do
      let mapped ← jsArrayMap (jsProp a "updates") (fun u =>
        match u with
        | JsonValue.null =>
            Except.error "Cannot read properties of null (reading 'id')"
        | _ => Except.ok (mkObj [("nodeId", jsProp u "id"), ("textContent", jsProp u "text")]))
      Except.ok (JsonValue.obj [("updates", JsonValue.arr mapped)])) }

/-- Tool definition: paper_rename_nodes (same unchecked `.map` over
`a.updates`). -/
def paper_rename_nodes : PaperToolDef :=
  { name := "paper_rename_nodes", mcpName := "rename_nodes",
    mapArgs := some (fun a => do
      let mapped ← jsArrayMap (jsProp a "updates") (fun u =>
        match u with
        | JsonValue.null =>
            Except.error "Cannot read properties of null (reading 'id')"
        | _ => Except.ok (mkObj [("nodeId", jsProp u "id"), ("name", jsProp u "name")]))
      Except.ok (JsonValue.obj [("updates", JsonValue.arr mapped)])) }

/-- Tool definition: paper_duplicate_nodes (unchecked `.map` over
`a.ids`). -/
def paper_duplicate_nodes : PaperToolDef :=
  { name := "paper_duplicate_nodes", mcpName := "duplicate_nodes",
    mapArgs := some (fun a => do
      let nodes ← jsArrayMap (jsProp a "ids") (fun v =>
        Except.ok (JsonValue.obj [("id", v)]))
      Except.ok (JsonValue.obj [("nodes", JsonValue.arr nodes)])) }

/-- Tool definition: paper_update_styles (unchecked `.map` over
`a.updates`; each item becomes `\x7b nodeIds: [u.id], styles: u.styles \x7d`). -/
def paper_update_styles : PaperToolDef :=
  { name := "paper_update_styles", mcpName := "update_styles",
    mapArgs := some (fun a => do
      let mapped ← jsArrayMap (jsProp a "updates") (fun u =>
        match u with
        | JsonValue.null =>
            Except.error "Cannot read properties of null (reading 'id')"
        | _ => Except.ok (mkObj
            [("nodeIds", some (JsonValue.arr [orNull (jsProp u "id")])),
             ("styles", jsProp u "styles")]))
      Except.ok (JsonValue.obj [("updates", JsonValue.arr mapped)])) }

/-- Tool definition: paper_delete_nodes. -/
def paper_delete_nodes : PaperToolDef :=
  { name := "paper_delete_nodes", mcpName := "delete_nodes",
    mapArgs := some (fun a => Except.ok (mkObj [("nodeIds", jsProp a "ids")])) }

/-- Tool definition: paper_start_working_on_nodes. -/
def paper_start_working_on_nodes : PaperToolDef :=
  { name := "paper_start_working_on_nodes", mcpName := "start_working_on_nodes",
    mapArgs := some (fun a => Except.ok (mkObj [("nodeIds", jsProp a "ids")])) }

/-- Tool definition: paper_finish_working_on_nodes
(`(a) => (a.ids ? \x7b nodeIds: a.ids \x7d : \x7b\x7d)`). -/
def paper_finish_working_on_nodes : PaperToolDef :=
  { name := "paper_finish_working_on_nodes", mcpName := "finish_working_on_nodes",
    mapArgs := some (fun a =>
      Except.ok (if jsTruthyOpt (jsProp a "ids")
                 then mkObj [("nodeIds", jsProp a "ids")]
                 else JsonValue.obj [])) }

/-- The catalog (`paperTools`), in source order. -/
def paperTools : List PaperToolDef :=
  [paper_get_basic_info, paper_get_selection, paper_get_node_info,
   paper_get_children, paper_get_tree_summary, paper_get_screenshot,
   paper_get_jsx, paper_get_computed_styles, paper_get_fill_image,
   paper_get_font_family_info, paper_get_guide, paper_find_placement,
   paper_create_artboard, paper_write_html, paper_set_text_content,
   paper_rename_nodes, paper_duplicate_nodes, paper_update_styles,
   paper_delete_nodes, paper_start_working_on_nodes,
   paper_finish_working_on_nodes]

/-- The four definitions whose rewrite function can throw. -/
def batchToolNames : List String :=
  ["paper_set_text_content", "paper_rename_nodes", "paper_duplicate_nodes",
   "paper_update_styles"]

/-! ## Request ids -/

/-- The initial value of the module-level `requestId` counter. -/
def requestIdInit : Int := 1

/-- The probe's JSON-RPC envelope: `isPaperRunning` always sends
`\x7b jsonrpc: "2.0", method: "initialize", id: 0 \x7d`, bypassing the
counter. -/
def probeRequest : JsonValue :=
  JsonValue.obj
    [("jsonrpc", JsonValue.str "2.0"),
     ("method", JsonValue.str "initialize"),
     ("id", JsonValue.num 0)]

/-- One outbound request issued by this module during a process lifetime:
either a `callPaperMcp` tool call or a liveness probe. -/
inductive OutboundCall where
  | tool (mcpName : String) (args : JsonValue) : OutboundCall
  | probe : OutboundCall

/-- The envelopes a sequence of outbound calls puts on the wire, threading
the `requestId` counter: each tool call uses `requestId++`, each probe sends
`probeRequest` and leaves the counter untouched. -/
def outboundTrace (st : Int) : List OutboundCall → List JsonValue
  | [] => []
  | OutboundCall.tool n a :: rest => toolCallRequest n a st :: outboundTrace (st + 1) rest
  | OutboundCall.probe :: rest => probeRequest :: outboundTrace st rest

/-- The id carried by an envelope (every envelope this module builds has a
numeric `id`). -/
def requestIdOf (env : JsonValue) : Int :=
  match jsProp env "id" with
  | some (JsonValue.num n) => n
  | _ => 0

/-- The ids of all envelopes of a trace, in order. -/
def traceIds (st : Int) (calls : List OutboundCall) : List Int :=
  (outboundTrace st calls).map requestIdOf

/-- Whether an envelope is a `tools/call` request (as opposed to the
probe's `initialize`). -/
def isToolCallEnvelope (env : JsonValue) : Bool :=
  match jsProp env "method" with
  | some (JsonValue.str m) => m = "tools/call"
  | _ => false

/-- The ids of the `tools/call` envelopes of a trace, in order. -/
def toolCallIds (st : Int) (calls : List OutboundCall) : List Int :=
  ((outboundTrace st calls).filter isToolCallEnvelope).map requestIdOf

/-- `isPaperRunning()`: true iff the probe's fetch settled with a 2xx
status; any exception (including the 3s timeout) yields false. -/
def isPaperRunning : FetchOutcome → Bool
  | FetchOutcome.response r => decide (200 ≤ r.status) && decide (r.status ≤ 299)
  | FetchOutcome.thrown _ => false

/-- A stand-in for `JSON.parse` used by concrete instantiations: always
fails, as on a non-JSON body. -/
def mockParse : String → Except String JsonValue :=
  fun _ => Except.error "Unexpected token"

/-- A stand-in for `JSON.parse` that returns a fixed parsed value. -/
def constParse (v : JsonValue) : String → Except String JsonValue :=
  fun _ => Except.ok v

/-- Well-formedness of what `execute` hands the agent framework: it did
resolve (no thrown exception), its content is non-empty, and a failure
result is exactly one text block carrying the error string that the
structured details also carry. -/
def wellFormedToolOutcome : Except String AgentToolResult → Prop
  | Except.error _ => False
  | Except.ok r =>
      r.content ≠ [] ∧
      (match r.details with
       | ToolDetails.error e => r.content = [ContentBlock.text (some e)]
       | ToolDetails.mcpTool _ => r.content ≠ [])

/-- The formatter's fallback condition, stated from the spec: the raw result
is not an object, lacks an array-valued `content` field, or its content
array yields zero recognized blocks after filtering. -/
def fallbackCond : JsonValue → Bool
  | JsonValue.obj fields =>
      match lookupProp fields "content" with
      | some (JsonValue.arr items) => (items.filterMap recognizeBlock).isEmpty
      | _ => true
  | _ => true

/-! ## Helper lemmas -/

theorem splitSegs_ne_nil (cs : List Char) : splitSegs cs ≠ [] := by
  induction cs with
  | nil => simp [splitSegs]
  | cons c cs ih =>
    cases hc : isLineTerminator c with
    | true => simp [splitSegs, hc]
    | false =>
      simp only [splitSegs, hc, Bool.false_eq_true, if_false]
      cases hs : splitSegs cs with
      | nil => simp
      | cons seg rest => simp

theorem splitSegs_no_term (cs : List Char)
    (h : ∀ c ∈ cs, isLineTerminator c = false) : splitSegs cs = [cs] := by
  induction cs with
  | nil => rfl
  | cons c cs ih =>
    have hc : isLineTerminator c = false := h c (by simp)
    have ih' : splitSegs cs = [cs] := ih (fun x hx => h x (by simp [hx]))
    simp [splitSegs, hc, ih']

theorem splitSegs_append (a b : List Char) (t : Char)
    (ht : isLineTerminator t = true) :
    splitSegs (a ++ t :: b) = splitSegs a ++ splitSegs b := by
  induction a with
  | nil => simp [splitSegs, ht]
  | cons c cs ih =>
    cases hc : isLineTerminator c with
    | true => simp [splitSegs, hc, ih]
    | false =>
      simp only [List.cons_append, splitSegs, hc, Bool.false_eq_true, if_false,
        List.append_eq]
      rw [ih]
      cases hs : splitSegs cs with
      | nil => exact absurd hs (splitSegs_ne_nil cs)
      | cons seg rest => simp

theorem findSome?_append {α β : Type} (l₁ l₂ : List α) (f : α → Option β) :
    (l₁ ++ l₂).findSome? f =
      match l₁.findSome? f with
      | some b => some b
      | none => l₂.findSome? f := by
  induction l₁ with
  | nil => simp
  | cons x xs ih =>
    cases hx : f x <;> simp [List.findSome?_cons, hx, ih]

theorem collectParts_eq_filterMap (items : List JsonValue) :
    collectParts items = items.filterMap recognizeBlock := by
  induction items with
  | nil => rfl
  | cons item rest ih =>
    cases hit : recognizeBlock item <;>
      simp [collectParts, hit, List.filterMap_cons, ih]

theorem formatMcpResult_ne_nil (v : Option JsonValue) :
    formatMcpResult v ≠ [] := by
  match v with
  | none => simp [formatMcpResult]
  | some v =>
    simp only [formatMcpResult]
    cases hto : (jsTruthy v && isObjectType v) with
    | false => simp
    | true =>
      simp only [if_true]
      cases hc : jsProp v "content" with
      | none => simp
      | some cv =>
        cases cv with
        | arr items =>
          cases hp : collectParts items with
          | nil => simp [hp]
          | cons b bs => simp [hp]
        | null => simp
        | bool b => simp
        | num n => simp
        | str s => simp
        | obj fields => simp

/-- A terminator-free, non-empty body that is not itself a `data: ` line is
extracted whole. -/
theorem ssePayload_raw (s : String)
    (h1 : ∀ c ∈ s.data, isLineTerminator c = false)
    (h3 : dataCapture s.data = none) : ssePayload s = s := by
  simp [ssePayload, extractData, splitSegs_no_term s.data h1,
        List.findSome?_cons, h3, List.findSome?_nil]

/-- Wrapping a terminator-free, non-empty payload as a single `data: ` SSE
line extracts exactly that payload. -/
theorem extractData_sse (s : String)
    (h1 : ∀ c ∈ s.data, isLineTerminator c = false)
    (h2 : s.data ≠ []) : extractData ("data: " ++ s) = some s := by
  have hall : ∀ c ∈ ("data: " ++ s).data, isLineTerminator c = false := by
    intro c hc
    rw [String.data_append] at hc
    rcases List.mem_append.mp hc with hpre | hs
    · revert hpre
      show c ∈ ['d', 'a', 't', 'a', ':', ' '] → _
      intro hpre
      fin_cases hpre <;> rfl
    · exact h1 c hs
  have hsplit := splitSegs_no_term ("data: " ++ s).data hall
  simp only [extractData, hsplit, List.findSome?_cons]
  have hdata : ("data: " ++ s).data = 'd' :: 'a' :: 't' :: 'a' :: ':' :: ' ' :: s.data := by
    rw [String.data_append]; rfl
  rw [hdata]
  simp only [dataCapture, List.isEmpty_eq_true]
  simp [h2]

theorem ssePayload_sse (s : String)
    (h1 : ∀ c ∈ s.data, isLineTerminator c = false)
    (h2 : s.data ≠ []) : ssePayload ("data: " ++ s) = s := by
  simp [ssePayload, extractData_sse s h1 h2]

/-! ## Claims -/

/-- C4: for every raw result value that is not an object, or lacks an
array-valued content field, or whose content array yields zero recognized
blocks after filtering, the formatter returns exactly one text block whose
text is the pretty-printed JSON (2-space indentation) of the whole raw
input; and the formatter's output is a non-empty sequence for every
possible input (including an `undefined` raw result). -/
theorem claim_c4_fallback :
    (∀ v : Option JsonValue, formatMcpResult v ≠ []) ∧
    (∀ v : JsonValue, fallbackCond v = true →
      formatMcpResult (some v) =
        [ContentBlock.text (some (jsonStringifyPretty v))]) := by
  refine ⟨formatMcpResult_ne_nil, ?_⟩
  intro v hv
  cases v with
  | null => rfl
  | bool b => cases b <;> rfl
  | num n => simp [formatMcpResult, jsTruthy, isObjectType]
  | str s => simp [formatMcpResult, jsTruthy, isObjectType]
  | arr items => rfl
  | obj fields =>
    simp only [formatMcpResult, jsTruthy, isObjectType, Bool.and_self, if_true, jsProp]
    simp only [fallbackCond] at hv
    cases hc : lookupProp fields "content" with
    | none => simp [hc]
    | some cv =>
      cases cv with
      | arr items =>
        rw [hc] at hv
        simp only [Option.some.injEq] at hv
        simp [hc, collectParts_eq_filterMap, hv]
      | null => simp [hc]
      | bool b => simp [hc]
      | num n => simp [hc]
      | str s => simp [hc]
      | obj fs => simp [hc]

/-- C4 witness: a result object with an empty content array falls back to
the single pretty-printed-JSON text block. -/
theorem claim_c4_witness :
    formatMcpResult (some (JsonValue.obj [("content", JsonValue.arr [])])) =
      [ContentBlock.text (some "\x7b\n  \"content\": []\n\x7d")] := by
  have h := claim_c4_fallback.2 (JsonValue.obj [("content", JsonValue.arr [])]) (by decide)
  rw [h]
  simp only [jsonStringifyPretty, ppJson, ppProps]
  decide

/-- C5: for a raw result object with an array-valued content field whose
filtering leaves at least one block, the formatter keeps exactly the
recognized `text`/`image` items (mime type defaulting to `image/png` when
absent or not a string), in their original order, and silently drops every
other item. -/
theorem claim_c5_filtering (fields : List (String × JsonValue))
    (items : List JsonValue)
    (h1 : lookupProp fields "content" = some (JsonValue.arr items))
    (h2 : items.filterMap recognizeBlock ≠ []) :
    formatMcpResult (some (JsonValue.obj fields)) =
      items.filterMap recognizeBlock := by
  have hne : (items.filterMap recognizeBlock).isEmpty = false := by
    cases hfm : items.filterMap recognizeBlock with
    | nil => exact absurd hfm h2
    | cons b bs => rfl
  simp only [formatMcpResult, jsTruthy, isObjectType, Bool.and_self, if_true,
    jsProp, h1, collectParts_eq_filterMap, hne, Bool.false_eq_true, if_false]

/-- C5 witness: the spec's concrete example — a text block, an image block
with explicit mime type, and an unrecognized `bogus` item — yields exactly
the two recognized blocks in order. -/
theorem claim_c5_witness :
    formatMcpResult (some (JsonValue.obj [("content", JsonValue.arr
      [JsonValue.obj [("type", JsonValue.str "text"), ("text", JsonValue.str "hello")],
       JsonValue.obj [("type", JsonValue.str "image"), ("data", JsonValue.str "AAA"),
                      ("mimeType", JsonValue.str "image/png")],
       JsonValue.obj [("type", JsonValue.str "bogus")]])])) =
      [ContentBlock.text (some "hello"), ContentBlock.image "AAA" "image/png"] := by
  have h := claim_c5_filtering [("content", JsonValue.arr
      [JsonValue.obj [("type", JsonValue.str "text"), ("text", JsonValue.str "hello")],
       JsonValue.obj [("type", JsonValue.str "image"), ("data", JsonValue.str "AAA"),
                      ("mimeType", JsonValue.str "image/png")],
       JsonValue.obj [("type", JsonValue.str "bogus")]])]
    [JsonValue.obj [("type", JsonValue.str "text"), ("text", JsonValue.str "hello")],
     JsonValue.obj [("type", JsonValue.str "image"), ("data", JsonValue.str "AAA"),
                    ("mimeType", JsonValue.str "image/png")],
     JsonValue.obj [("type", JsonValue.str "bogus")]] rfl (by decide)
  rw [h]
  decide

/-- C2: for every tool definition in the catalog, when the remote HTTP
response has a non-2xx status and execute resolves, the result's content is
exactly one text block whose text carries the HTTP status code and reason
text, and the structured details carry the same error string. -/
theorem claim_c2_http_failure (d : PaperToolDef) (_hd : d ∈ paperTools)
    (callId : String) (params : Option JsonValue)
    (parse : String → Except String JsonValue)
    (st : Nat) (stx body : String) (r : AgentToolResult)
    (hst : ¬(200 ≤ st ∧ st ≤ 299))
    (hr : executePaperTool d callId params parse
      (FetchOutcome.response ⟨st, stx, body⟩) = Except.ok r) :
    r.content = [ContentBlock.text
        (some ("Paper MCP returned " ++ toString st ++ " " ++ stx))] ∧
    r.details = ToolDetails.error
        ("Paper MCP returned " ++ toString st ++ " " ++ stx) := by
  cases hm : applyMapArgs d (coerceParams params) with
  | error e =>
    rw [executePaperTool, hm] at hr
    exact absurd hr (by simp)
  | ok args =>
    simp only [executePaperTool, hm, callPaperMcp, hst, if_false,
      eq_self_iff_true, Except.ok.injEq] at hr
    rw [← hr]
    exact ⟨rfl, rfl⟩

/-- C2 witness: a 500 response through paper_get_basic_info yields the
single status-carrying text block and matching details. -/
theorem claim_c2_witness :
    (AgentToolResult.mk
        [ContentBlock.text (some "Paper MCP returned 500 Internal Server Error")]
        (ToolDetails.error "Paper MCP returned 500 Internal Server Error")).content =
      [ContentBlock.text
        (some ("Paper MCP returned " ++ toString 500 ++ " " ++ "Internal Server Error"))] ∧
    (AgentToolResult.mk
        [ContentBlock.text (some "Paper MCP returned 500 Internal Server Error")]
        (ToolDetails.error "Paper MCP returned 500 Internal Server Error")).details =
      ToolDetails.error
        ("Paper MCP returned " ++ toString 500 ++ " " ++ "Internal Server Error") :=
  claim_c2_http_failure paper_get_basic_info (List.Mem.head _) "call-1" none
    mockParse 500 "Internal Server Error" "" _ (by decide) rfl

/-- C6: a thrown fetch error whose message indicates connection refusal or a
fetch-level failure yields the specific "Paper Desktop is not running" hint
(as the call's failure and as execute's single text block), and every other
thrown message yields a failure carrying that raw message. -/
theorem claim_c6_not_running :
    (∀ name args parse msg,
       (strIncludes msg "ECONNREFUSED" || strIncludes msg "fetch failed") = true →
       callPaperMcp name args parse (FetchOutcome.thrown msg) =
         CallResult.err notRunningError) ∧
    (∀ name args parse msg,
       (strIncludes msg "ECONNREFUSED" || strIncludes msg "fetch failed") = false →
       callPaperMcp name args parse (FetchOutcome.thrown msg) =
         CallResult.err ("Paper MCP connection error: " ++ msg)) ∧
    (∀ d callId params parse msg args,
       applyMapArgs d (coerceParams params) = Except.ok args →
       (strIncludes msg "ECONNREFUSED" || strIncludes msg "fetch failed") = true →
       executePaperTool d callId params parse (FetchOutcome.thrown msg) =
         Except.ok ⟨[ContentBlock.text (some notRunningError)],
                    ToolDetails.error notRunningError⟩) := by
  refine ⟨?_, ?_, ?_⟩
  · intro name args parse msg hmsg
    simp [callPaperMcp, fetchCatchHandler, hmsg]
  · intro name args parse msg hmsg
    simp [callPaperMcp, fetchCatchHandler, hmsg]
  · intro d callId params parse msg args hm hmsg
    unfold executePaperTool
    rw [hm]
    simp [callPaperMcp, fetchCatchHandler, hmsg]

/-- C6 witness: a Node-style ECONNREFUSED message produces the hint, and an
unrelated abort message is passed through with the generic prefix. -/
theorem claim_c6_witness :
    callPaperMcp "get_selection" (JsonValue.obj []) mockParse
      (FetchOutcome.thrown "connect ECONNREFUSED 127.0.0.1:29979") =
      CallResult.err notRunningError ∧
    callPaperMcp "get_selection" (JsonValue.obj []) mockParse
      (FetchOutcome.thrown "This operation was aborted") =
      CallResult.err ("Paper MCP connection error: " ++ "This operation was aborted") ∧
    executePaperTool paper_get_selection "call-9" none mockParse
      (FetchOutcome.thrown "fetch failed") =
      Except.ok ⟨[ContentBlock.text (some notRunningError)],
                 ToolDetails.error notRunningError⟩ :=
  ⟨claim_c6_not_running.1 "get_selection" (JsonValue.obj []) mockParse
      "connect ECONNREFUSED 127.0.0.1:29979" (by decide),
   claim_c6_not_running.2.1 "get_selection" (JsonValue.obj []) mockParse
      "This operation was aborted" (by decide),
   claim_c6_not_running.2.2 paper_get_selection "call-9" none mockParse
      "fetch failed" (JsonValue.obj []) rfl (by decide)⟩

/-- C8: whenever the parsed envelope carries an `error` field holding a
JSON-RPC error object with a string `message`, the call returns a tagged
failure surfacing that message verbatim, never a success carrying the
envelope's `result`. -/
theorem claim_c8_rpc_error (fields : List (String × JsonValue))
    (e : JsonValue) (msg : String)
    (he : lookupProp fields "error" = some e)
    (hm : jsProp e "message" = some (JsonValue.str msg)) :
    rpcOutcome (JsonValue.obj fields) =
      CallResult.err ("Paper MCP error: " ++ msg) ∧
    (∀ res, rpcOutcome (JsonValue.obj fields) ≠ CallResult.ok res) ∧
    (∀ name args parse st stx body,
      200 ≤ st → st ≤ 299 →
      parse (ssePayload body) = Except.ok (JsonValue.obj fields) →
      callPaperMcp name args parse (FetchOutcome.response ⟨st, stx, body⟩) =
        CallResult.err ("Paper MCP error: " ++ msg)) := by
  have hmain : rpcOutcome (JsonValue.obj fields) =
      CallResult.err ("Paper MCP error: " ++ msg) := by
    cases e with
    | obj efields =>
      simp only [jsProp] at hm
      simp [rpcOutcome, jsProp, he, jsTruthy, jsTemplate, hm, jsToString]
    | null => simp [jsProp] at hm
    | bool b => simp [jsProp] at hm
    | num n => simp [jsProp] at hm
    | str s => simp [jsProp] at hm
    | arr items => simp [jsProp] at hm
  refine ⟨hmain, ?_, ?_⟩
  · intro res
    rw [hmain]
    simp
  · intro name args parse st stx body h1 h2 hp
    simp only [callPaperMcp]
    rw [if_pos ⟨h1, h2⟩, hp]
    exact hmain

/-- C8 witness: a concrete envelope with `error.message = "boom"` is
surfaced as the tagged failure, also through a full 200-status call. -/
theorem claim_c8_witness :
    rpcOutcome (JsonValue.obj
      [("error", JsonValue.obj [("code", JsonValue.num 1), ("message", JsonValue.str "boom")]),
       ("result", JsonValue.num 7)]) =
      CallResult.err ("Paper MCP error: " ++ "boom") ∧
    callPaperMcp "get_selection" (JsonValue.obj [])
      (constParse (JsonValue.obj
        [("error", JsonValue.obj [("code", JsonValue.num 1), ("message", JsonValue.str "boom")]),
         ("result", JsonValue.num 7)]))
      (FetchOutcome.response ⟨200, "OK", "\x7b\x7d"⟩) =
      CallResult.err ("Paper MCP error: " ++ "boom") :=
  ⟨(claim_c8_rpc_error
      [("error", JsonValue.obj [("code", JsonValue.num 1), ("message", JsonValue.str "boom")]),
       ("result", JsonValue.num 7)]
      (JsonValue.obj [("code", JsonValue.num 1), ("message", JsonValue.str "boom")])
      "boom" rfl rfl).1,
   (claim_c8_rpc_error
      [("error", JsonValue.obj [("code", JsonValue.num 1), ("message", JsonValue.str "boom")]),
       ("result", JsonValue.num 7)]
      (JsonValue.obj [("code", JsonValue.num 1), ("message", JsonValue.str "boom")])
      "boom" rfl rfl).2.2 "get_selection" (JsonValue.obj []) _ 200 "OK" "\x7b\x7d"
      (by decide) (by decide) rfl⟩

/-- C3: for a single-line, non-empty JSON payload that is not itself a
`data: ` event line, the client's handling of a raw-JSON body and of the
same payload wrapped as a single SSE `data: ` line is behaviorally
equivalent: both extract the identical payload, so both produce the same
parsed envelope and the same success/failure outcome. -/
theorem claim_c3_sse_raw_equiv (s : String)
    (h1 : ∀ c ∈ s.data, isLineTerminator c = false)
    (h2 : s.data ≠ [])
    (h3 : dataCapture s.data = none) :
    ssePayload s = s ∧ ssePayload ("data: " ++ s) = s ∧
    (∀ name args parse st stx,
      callPaperMcp name args parse
        (FetchOutcome.response ⟨st, stx, "data: " ++ s⟩) =
      callPaperMcp name args parse (FetchOutcome.response ⟨st, stx, s⟩)) := by
  have p1 : ssePayload s = s := ssePayload_raw s h1 h3
  have p2 : ssePayload ("data: " ++ s) = s := ssePayload_sse s h1 h2
  refine ⟨p1, p2, ?_⟩
  intro name args parse st stx
  simp only [callPaperMcp, p1, p2]

/-- C3 witness: the payload `\x7b"a":1\x7d` behaves identically raw and
SSE-wrapped. -/
theorem claim_c3_witness :
    ssePayload "\x7b\"a\":1\x7d" = "\x7b\"a\":1\x7d" ∧
    ssePayload ("data: " ++ "\x7b\"a\":1\x7d") = "\x7b\"a\":1\x7d" ∧
    callPaperMcp "get_selection" (JsonValue.obj []) mockParse
      (FetchOutcome.response ⟨200, "OK", "data: " ++ "\x7b\"a\":1\x7d"⟩) =
    callPaperMcp "get_selection" (JsonValue.obj []) mockParse
      (FetchOutcome.response ⟨200, "OK", "\x7b\"a\":1\x7d"⟩) :=
  ⟨(claim_c3_sse_raw_equiv "\x7b\"a\":1\x7d" (by decide) (by decide) (by decide)).1,
   (claim_c3_sse_raw_equiv "\x7b\"a\":1\x7d" (by decide) (by decide) (by decide)).2.1,
   (claim_c3_sse_raw_equiv "\x7b\"a\":1\x7d" (by decide) (by decide) (by decide)).2.2
     "get_selection" (JsonValue.obj []) mockParse 200 "OK"⟩

/-- C10: when the body holds several `data: ` event lines, the client
extracts exactly the payload of the first matching line, and the call
behaves as if the body were that single event; every later event line is
ignored. `w` is any prefix (for example `event: message`) none of whose
lines matches, and `v` is arbitrary trailing content, which may contain
further `data: ` lines. -/
theorem claim_c10_first_event (w u v : String)
    (hw : (splitSegs w.data).findSome? dataCapture = none)
    (hu1 : ∀ c ∈ u.data, isLineTerminator c = false)
    (hu2 : u.data ≠ []) :
    extractData (w ++ "\n" ++ "data: " ++ u ++ "\n" ++ v) = some u ∧
    (∀ name args parse st stx,
      callPaperMcp name args parse (FetchOutcome.response
        ⟨st, stx, w ++ "\n" ++ "data: " ++ u ++ "\n" ++ v⟩) =
      callPaperMcp name args parse
        (FetchOutcome.response ⟨st, stx, "data: " ++ u⟩)) := by
  have hnl : isLineTerminator '\n' = true := rfl
  have hdall : ∀ c ∈ ("data: " ++ u).data, isLineTerminator c = false := by
    intro c hc
    rw [String.data_append] at hc
    rcases List.mem_append.mp hc with hpre | hs
    · revert hpre
      show c ∈ ['d', 'a', 't', 'a', ':', ' '] → _
      intro hpre
      fin_cases hpre <;> rfl
    · exact hu1 c hs
  have hbody : (w ++ "\n" ++ "data: " ++ u ++ "\n" ++ v).data =
      w.data ++ '\n' :: (("data: " ++ u).data ++ '\n' :: v.data) := by
    simp only [String.data_append, List.append_assoc]
    simp
  have hcap : dataCapture (("data: " ++ u).data) = some u.data := by
    rw [show ("data: " ++ u).data = 'd' :: 'a' :: 't' :: 'a' :: ':' :: ' ' :: u.data by
      rw [String.data_append]; rfl]
    simp only [dataCapture, List.isEmpty_eq_true]
    simp [hu2]
  have hx : extractData (w ++ "\n" ++ "data: " ++ u ++ "\n" ++ v) = some u := by
    simp only [extractData, hbody]
    rw [splitSegs_append _ _ '\n' hnl, splitSegs_append _ _ '\n' hnl,
      splitSegs_no_term (("data: " ++ u).data) hdall]
    rw [findSome?_append]
    rw [hw]
    simp only [List.cons_append, List.findSome?_cons, hcap]
    rfl
  refine ⟨hx, ?_⟩
  intro name args parse st stx
  have hp1 : ssePayload (w ++ "\n" ++ "data: " ++ u ++ "\n" ++ v) = u := by
    simp [ssePayload, hx]
  have hp2 : ssePayload ("data: " ++ u) = u := ssePayload_sse u hu1 hu2
  simp only [callPaperMcp, hp1, hp2]

/-- C10 witness: a realistic two-event body yields exactly the first
payload, and the call behaves as the single-event body. -/
theorem claim_c10_witness :
    extractData ("event: message" ++ "\n" ++ "data: " ++ "\x7b\"a\":1\x7d" ++ "\n" ++
      "data: \x7b\"b\":2\x7d") = some "\x7b\"a\":1\x7d" ∧
    callPaperMcp "get_selection" (JsonValue.obj []) mockParse
      (FetchOutcome.response ⟨200, "OK",
        "event: message" ++ "\n" ++ "data: " ++ "\x7b\"a\":1\x7d" ++ "\n" ++
          "data: \x7b\"b\":2\x7d"⟩) =
    callPaperMcp "get_selection" (JsonValue.obj []) mockParse
      (FetchOutcome.response ⟨200, "OK", "data: " ++ "\x7b\"a\":1\x7d"⟩) :=
  ⟨(claim_c10_first_event "event: message" "\x7b\"a\":1\x7d" "data: \x7b\"b\":2\x7d"
      (by decide) (by decide) (by decide)).1,
   (claim_c10_first_event "event: message" "\x7b\"a\":1\x7d" "data: \x7b\"b\":2\x7d"
      (by decide) (by decide) (by decide)).2
     "get_selection" (JsonValue.obj []) mockParse 200 "OK"⟩

/-- C7 counterexample: `paper_write_html` also renames the agent-facing
`id`, but to `targetNodeId`, not `nodeId` — for a concrete invocation with
`id` present, the remote arguments contain no `nodeId` key at all, refuting
the claim's inclusion of paper_write_html among the `nodeId`-renaming
tools. -/
theorem claim_c7_counterexample :
    mapArgsOk paper_write_html (some (JsonValue.obj
      [("id", JsonValue.str "node-1"), ("html", JsonValue.str "<div></div>")])) = true ∧
    jsProp (sentArgs paper_write_html (some (JsonValue.obj
      [("id", JsonValue.str "node-1"), ("html", JsonValue.str "<div></div>")])))
      "nodeId" = none ∧
    jsProp (sentArgs paper_write_html (some (JsonValue.obj
      [("id", JsonValue.str "node-1"), ("html", JsonValue.str "<div></div>")])))
      "targetNodeId" = some (JsonValue.str "node-1") :=
  ⟨rfl, rfl, rfl⟩

/-- C7 (amended): for the six tools that rename `id` to `nodeId`
(paper_get_node_info, paper_get_children, paper_get_tree_summary,
paper_get_screenshot, paper_get_jsx, paper_get_fill_image), invoking
execute with params containing `id` makes the remote call receive an
arguments mapping binding `nodeId` to the original value and containing no
`id` key; paper_write_html likewise drops `id` but binds `targetNodeId`
instead of `nodeId`. -/
theorem claim_c7_remapping :
    (∀ d, d ∈ [paper_get_node_info, paper_get_children, paper_get_tree_summary,
               paper_get_screenshot, paper_get_jsx, paper_get_fill_image] →
      ∀ fields idv, lookupProp fields "id" = some idv →
        mapArgsOk d (some (JsonValue.obj fields)) = true ∧
        jsProp (sentArgs d (some (JsonValue.obj fields))) "nodeId" = some idv ∧
        jsProp (sentArgs d (some (JsonValue.obj fields))) "id" = none) ∧
    (∀ fields idv, lookupProp fields "id" = some idv →
        jsProp (sentArgs paper_write_html (some (JsonValue.obj fields)))
          "targetNodeId" = some idv ∧
        jsProp (sentArgs paper_write_html (some (JsonValue.obj fields)))
          "id" = none ∧
        jsProp (sentArgs paper_write_html (some (JsonValue.obj fields)))
          "nodeId" = none) := by
  constructor
  · intro d hd fields idv hid
    fin_cases hd
    · refine ⟨rfl, ?_, ?_⟩ <;>
        simp [sentArgs, applyMapArgs, paper_get_node_info, coerceParams, mkObj,
          jsProp, hid, Except.toOption, lookupProp]
    · refine ⟨rfl, ?_, ?_⟩ <;>
        simp [sentArgs, applyMapArgs, paper_get_children, coerceParams, mkObj,
          jsProp, hid, Except.toOption, lookupProp]
    · refine ⟨rfl, ?_, ?_⟩ <;>
        (simp only [sentArgs, applyMapArgs, paper_get_tree_summary, coerceParams,
          mkObj, jsProp, hid, Except.toOption];
         cases hdep : lookupProp fields "depth" <;>
           simp [hdep, lookupProp])
    · refine ⟨rfl, ?_, ?_⟩ <;>
        (simp only [sentArgs, applyMapArgs, paper_get_screenshot, coerceParams,
          mkObj, jsProp, hid, Except.toOption];
         cases hsc : lookupProp fields "scale" <;>
           simp [hsc, lookupProp])
    · refine ⟨rfl, ?_, ?_⟩ <;>
        (simp only [sentArgs, applyMapArgs, paper_get_jsx, coerceParams,
          mkObj, jsProp, hid, Except.toOption];
         cases hfmt : lookupProp fields "styleFormat" <;>
           simp [hfmt, lookupProp])
    · refine ⟨rfl, ?_, ?_⟩ <;>
        simp [sentArgs, applyMapArgs, paper_get_fill_image, coerceParams, mkObj,
          jsProp, hid, Except.toOption, lookupProp]
  · intro fields idv hid
    refine ⟨?_, ?_, ?_⟩ <;>
      (simp only [sentArgs, applyMapArgs, paper_write_html, coerceParams,
        mkObj, jsProp, hid, Except.toOption];
       cases hh : lookupProp fields "html" <;>
         cases hmo : lookupProp fields "mode" <;>
           simp [hh, hmo, lookupProp])

/-- C7 witness: a paper_get_node_info invocation with `id = "n-7"` sends
`nodeId = "n-7"` and no `id`. -/
theorem claim_c7_witness :
    mapArgsOk paper_get_node_info
      (some (JsonValue.obj [("id", JsonValue.str "n-7")])) = true ∧
    jsProp (sentArgs paper_get_node_info
      (some (JsonValue.obj [("id", JsonValue.str "n-7")]))) "nodeId" =
      some (JsonValue.str "n-7") ∧
    jsProp (sentArgs paper_get_node_info
      (some (JsonValue.obj [("id", JsonValue.str "n-7")]))) "id" = none :=
  claim_c7_remapping.1 paper_get_node_info (List.Mem.head _)
    [("id", JsonValue.str "n-7")] (JsonValue.str "n-7") rfl

/-- C1 counterexample: paper_set_text_content belongs to the catalog, yet
invoking its execute with the well-typed-shaped but updates-less params
`\x7b\x7d` makes the argument-rewrite call `.map` on `undefined`: the
TypeError escapes execute (the promise rejects), refuting "never throws for
params of any shape". -/
theorem claim_c1_counterexample :
    paper_set_text_content ∈ paperTools ∧
    executePaperTool paper_set_text_content "call-1" (some (JsonValue.obj []))
      mockParse (FetchOutcome.thrown "boom") =
      Except.error "Cannot read properties of undefined (reading 'map')" := by
  constructor
  · simp [paperTools]
  · rfl

/-- C1 (amended): execute never throws and always resolves with a
well-formed tool result — non-empty content, failures as the single text
block carrying the same error string as the details — whenever its
argument-rewrite step succeeds; and the rewrite step succeeds for every
params shape for every catalog tool except the four batch tools
(paper_set_text_content, paper_rename_nodes, paper_duplicate_nodes,
paper_update_styles), whose unchecked `.map` throws on an absent or
non-array batch field. -/
theorem claim_c1_no_throw :
    (∀ d callId params parse outcome args,
       applyMapArgs d (coerceParams params) = Except.ok args →
       wellFormedToolOutcome (executePaperTool d callId params parse outcome)) ∧
    (∀ d, d ∈ paperTools → d.name ∉ batchToolNames →
       ∀ params, mapArgsOk d params = true) := by
  constructor
  · intro d callId params parse outcome args h
    simp only [executePaperTool, h]
    cases hc : callPaperMcp d.mcpName args parse outcome with
    | err e => simp [wellFormedToolOutcome]
    | ok res => simp [wellFormedToolOutcome, formatMcpResult_ne_nil]
  · intro d hd hname params
    fin_cases hd
    · rfl
    · rfl
    · rfl
    · rfl
    · rfl
    · rfl
    · rfl
    · rfl
    · rfl
    · rfl
    · rfl
    · rfl
    · rfl
    · rfl
    · exact absurd (by simp [paper_set_text_content, batchToolNames]) hname
    · exact absurd (by simp [paper_rename_nodes, batchToolNames]) hname
    · exact absurd (by simp [paper_duplicate_nodes, batchToolNames]) hname
    · exact absurd (by simp [paper_update_styles, batchToolNames]) hname
    · rfl
    · rfl
    · rfl

/-- C1 witness: a catalog tool with a total rewrite resolves well-formed
even on a thrown fetch. -/
theorem claim_c1_witness :
    wellFormedToolOutcome (executePaperTool paper_get_basic_info "call-2" none
      mockParse (FetchOutcome.thrown "boom")) :=
  claim_c1_no_throw.1 paper_get_basic_info "call-2" none mockParse
    (FetchOutcome.thrown "boom") (JsonValue.obj []) rfl

/-- C9 counterexample: the liveness probe is an outbound JSON-RPC request
of this module, and it always carries id 0 — two probes yield ids `[0, 0]`,
which are neither pairwise distinct nor monotonically increasing, refuting
the claim over all outbound calls in a process lifetime. -/
theorem claim_c9_counterexample :
    traceIds requestIdInit [OutboundCall.probe, OutboundCall.probe] = [0, 0] ∧
    ¬ (traceIds requestIdInit
        [OutboundCall.probe, OutboundCall.probe]).Pairwise (· < ·) ∧
    ¬ (traceIds requestIdInit [OutboundCall.probe, OutboundCall.probe]).Nodup := by
  refine ⟨rfl, ?_, ?_⟩ <;> decide

/-- C9 (amended): across every sequence of outbound calls in a process
lifetime, the ids placed in the `tools/call` request envelopes by the
`requestId++` counter are strictly increasing in issue order (each call's
id exceeds every earlier one's) and hence pairwise distinct; the liveness
probe's `initialize` envelope, by contrast, always carries the fixed id 0
outside the counter. -/
theorem claim_c9_fresh_ids : ∀ (calls : List OutboundCall) (st : Int),
    (toolCallIds st calls).Pairwise (· < ·) ∧
    (toolCallIds st calls).Nodup ∧
    requestIdOf probeRequest = 0 := by
  have hlow : ∀ (calls : List OutboundCall) (st : Int) (x : Int),
      x ∈ toolCallIds st calls → st ≤ x := by
    intro calls
    induction calls with
    | nil => intro st x hx; simp [toolCallIds, outboundTrace] at hx
    | cons c rest ih =>
      intro st x hx
      cases c with
      | probe =>
        rw [show toolCallIds st (OutboundCall.probe :: rest) = toolCallIds st rest
          from rfl] at hx
        exact ih st x hx
      | tool n a =>
        rw [show toolCallIds st (OutboundCall.tool n a :: rest) =
            st :: toolCallIds (st + 1) rest from rfl] at hx
        rcases List.mem_cons.mp hx with h | h
        · omega
        · have := ih (st + 1) x h; omega
  have hpair : ∀ (calls : List OutboundCall) (st : Int),
      (toolCallIds st calls).Pairwise (· < ·) := by
    intro calls
    induction calls with
    | nil => intro st; simp [toolCallIds, outboundTrace]
    | cons c rest ih =>
      intro st
      cases c with
      | probe =>
        rw [show toolCallIds st (OutboundCall.probe :: rest) = toolCallIds st rest
          from rfl]
        exact ih st
      | tool n a =>
        rw [show toolCallIds st (OutboundCall.tool n a :: rest) =
            st :: toolCallIds (st + 1) rest from rfl]
        exact List.Pairwise.cons
          (fun y hy => by have := hlow rest (st + 1) y hy; omega) (ih (st + 1))
  intro calls st
  refine ⟨hpair calls st, ?_, rfl⟩
  exact (hpair calls st).imp (fun h => by omega)

end Paper
